import Mathlib

/-!
Shallow embedding of the GNU Hurd procfs translator bootstrap layer
(src/procfs/main.c): command-line option parsing (`argp_parser`), the
runtime option surface (`netfs_runtime_argp`), option printing
(`netfs_append_args`), and root-node construction (`root_make_node`).

Modelling conventions:
* C strings are `List Char`; `strtol`'s `endp` out-parameter is returned as
  the unconsumed suffix (so `*endp == 0` corresponds to the suffix being
  `[]`, and "no conversion performed" returns the original string).
* `long` is modelled as unbounded `Int`; `strtol`'s overflow clamping at
  LONG_MAX/LONG_MIN is not modelled (on the translator's historical 32-bit
  target, `long` and `int` have the same width).  Explicit/implicit
  conversions to the unsigned 32-bit types `mode_t`/`uid_t` are modelled by
  `toU32` (reduction mod 2^32).
* `argp_error` does not return in C; it is modelled as a distinct outcome
  carrying the (unchanged) configuration.
-/

namespace Procfs

/-- C-locale `isspace`: space, \t, \n, \v, \f, \r. -/
def isSpaceChar (c : Char) : Bool :=
  c == ' ' || c == '\t' || c == '\n' || c == '\x0b' || c == '\x0c' || c == '\r'

/-- Numeric value of a digit character, as `strtol` interprets it
('0'-'9', 'a'-'z', 'A'-'Z'); 99 for any non-digit (99 exceeds every
base accepted by `strtol`). -/
def digitValue (c : Char) : Nat :=
  if '0' ≤ c ∧ c ≤ '9' then c.toNat - 48
  else if 'a' ≤ c ∧ c ≤ 'z' then c.toNat - 87
  else if 'A' ≤ c ∧ c ≤ 'Z' then c.toNat - 55
  else 99

/-- Is `c` a digit of base `b`? -/
def isBaseDigit (b : Nat) (c : Char) : Bool :=
  decide (digitValue c < b)

/-- Accumulate the base-`b` digits at the head of the string onto `acc`;
returns the value together with the unconsumed suffix. -/
def parseDigitsAux (b : Nat) (acc : Nat) : List Char → Nat × List Char
  | [] => (acc, [])
  | c :: cs =>
    if isBaseDigit b c then parseDigitsAux b (acc * b + digitValue c) cs
    else (acc, c :: cs)

/-- Parse a non-empty run of base-`b` digits; `none` when the first
character is not a digit (C: "no conversion performed"). -/
def parseDigits (b : Nat) : List Char → Option (Nat × List Char)
  | [] => none
  | c :: cs =>
    if isBaseDigit b c then some (parseDigitsAux b (digitValue c) cs)
    else none

/-- Finish a `strtol` call from the digit position: on a successful
conversion, apply the sign and report the suffix; with no digits, return 0
with `endp` reset to the original string `orig`. -/
def strtolFrom (b : Nat) (neg : Bool) (s orig : List Char) : Int × List Char :=
  match parseDigits b s with
  | none => (0, orig)
  | some (n, rest) => (if neg then -(n : Int) else (n : Int), rest)

/-- Does the string start with a base-`b` digit? -/
def headIsBaseDigit (b : Nat) : List Char → Bool
  | [] => false
  | c :: _ => isBaseDigit b c

/-- Does the string start with a `0x`/`0X` prefix followed by a hex digit
(the condition under which `strtol` consumes the prefix)? -/
def hexPfx (s : List Char) : Bool :=
  match s with
  | a :: x :: r => a == '0' && (x == 'x' || x == 'X') && headIsBaseDigit 16 r
  | _ => false

/-- Does the string start with the character '0'? -/
def startsZero (s : List Char) : Bool :=
  match s with
  | a :: _ => a == '0'
  | _ => false

/-- Body of `strtol` after whitespace and sign handling: base detection
(base 0 means auto-detect: `0x` hex, leading `0` octal, else decimal;
an explicit base 16 also skips a `0x` prefix). -/
def strtolCore (b : Nat) (neg : Bool) (s orig : List Char) : Int × List Char :=
  if b = 16 then
    if hexPfx s then strtolFrom 16 neg (s.drop 2) orig
    else strtolFrom 16 neg s orig
  else if b = 0 then
    if hexPfx s then strtolFrom 16 neg (s.drop 2) orig
    else if startsZero s then strtolFrom 8 neg s orig
    else strtolFrom 10 neg s orig
  else strtolFrom b neg s orig

/-- Model of `strtol (s, &endp, b)`, returning `(value, endp)` with `endp` as the
unconsumed suffix.  Overflow clamping is not modelled (see header). -/
def strtol (s : List Char) (b : Nat) : Int × List Char :=
  match s.dropWhile isSpaceChar with
  | [] => strtolCore b false [] s
  | c :: r =>
    if c == '-' then strtolCore b true r s
    else if c == '+' then strtolCore b false r s
    else strtolCore b false (c :: r) s

/-- The five option variables of main.c (lines 35-39):
`opt_clk_tck : int`, `opt_stat_mode : mode_t`, `opt_fake_self : pid_t`,
`opt_kernel_pid : pid_t`, `opt_anon_owner : uid_t`. -/
structure Config where
  opt_clk_tck : Int
  opt_stat_mode : Nat
  opt_fake_self : Int
  opt_kernel_pid : Int
  opt_anon_owner : Nat
deriving DecidableEq, Repr

/-- The startup defaults assigned at the top of `main` (lines 288-292):
`OPT_CLK_TCK` is `sysconf(_SC_CLK_TCK)`, a host-dependent positive value,
so it is a parameter; the others are the constants of lines 42-46. -/
def defaultConfig (sc_clk_tck : Int) : Config :=
  { opt_clk_tck := sc_clk_tck
    opt_stat_mode := 0o400
    opt_fake_self := -1
    opt_kernel_pid := 2
    opt_anon_owner := 0 }

/-- Conversion of a (possibly negative) `long` value to an unsigned 32-bit
type (`mode_t`, `uid_t`): reduction modulo 2^32. -/
def toU32 (v : Int) : Nat := (v % (2 ^ 32 : Int)).toNat

/-- The keys dispatched by `argp_parser`'s switch: the short option
characters 'h', 's', 'S', 'k', 'c', 'a', the long-only keys
`NODEV_KEY`/`NOEXEC_KEY`/`NOSUID_KEY`, the runtime child's 'u', and a
representative of every other key (hitting the `default` branch). -/
inductive ArgKey
  | clkTck      -- 'h' --clk-tck
  | statMode    -- 's' --stat-mode
  | fakeSelf    -- 'S' --fake-self (OPTION_ARG_OPTIONAL)
  | kernelProc  -- 'k' --kernel-process
  | compatible  -- 'c' --compatible
  | anonOwner   -- 'a' --anonymous-owner
  | nodev       -- NODEV_KEY
  | noexec      -- NOEXEC_KEY
  | nosuid      -- NOSUID_KEY
  | update      -- 'u' (runtime_argp child)
  | other       -- any key not in the table
deriving DecidableEq, Repr

/-- Result of one `argp_parser` invocation.  `argpError` models
`argp_error` (which reports and does not return); it carries the
configuration as it stood, which the parser left unchanged.
`unknownKey` models `return ARGP_ERR_UNKNOWN`. -/
inductive Outcome
  | ok : Config → Outcome
  | argpError : String → Config → Outcome
  | unknownKey : Config → Outcome
deriving DecidableEq, Repr

/-- The configuration as it stands after the parser invocation. -/
def Outcome.config : Outcome → Config
  | .ok c => c
  | .argpError _ c => c
  | .unknownKey c => c

/-- Model of `argp_parser` of main.c (lines 52-137).  `pwdb` models the password
database consulted by `getpwnam` (name → uid); `arg` is `NULL`-able only
for the `OPTION_ARG_OPTIONAL` key 'S' — argp never passes `NULL` for a
mandatory-argument option, so those `none` cases are unreachable and
lumped into the default branch.  The `NODEV_KEY`, `NOEXEC_KEY` and
`NOSUID_KEY` cases contain only empty statements (`;;`) and no `break`,
so they fall through into `default: return ARGP_ERR_UNKNOWN`. -/
def argp_parse_key (pwdb : List Char → Option Nat) (key : ArgKey)
    (arg : Option (List Char)) (cfg : Config) : Outcome :=
  match key, arg with
  | .clkTck, some a =>
    let v := (strtol a 0).1
    let endp := (strtol a 0).2
    if endp ≠ [] ∨ a = [] ∨ v ≤ 0 then
      .argpError "--clk-tck: HZ should be a positive integer" cfg
    else .ok { cfg with opt_clk_tck := v }
  | .statMode, some a =>
    let v := (strtol a 8).1
    let endp := (strtol a 8).2
    -- `(mode_t) v & ~07777` is nonzero exactly when the 32-bit value has a
    -- set bit at position ≥ 12, i.e. when it is ≥ 0o10000.
    if endp ≠ [] ∨ a = [] ∨ 0o10000 ≤ toU32 v then
      .argpError "--stat-mode: MODE should be an octal mode" cfg
    else .ok { cfg with opt_stat_mode := toU32 v }
  | .fakeSelf, some a =>
    let v := (strtol a 0).1
    let endp := (strtol a 0).2
    if endp ≠ [] ∨ a = [] then
      .argpError "--fake-self: PID must be an integer" cfg
    else .ok { cfg with opt_fake_self := v }
  | .fakeSelf, none => .ok { cfg with opt_fake_self := 1 }
  | .kernelProc, some a =>
    let v := (strtol a 0).1
    let endp := (strtol a 0).2
    -- Note: the C condition tests `(signed) opt_kernel_pid < 0`, i.e. the
    -- variable's PREVIOUS value, not the freshly parsed `v`.
    if endp ≠ [] ∨ a = [] ∨ cfg.opt_kernel_pid < 0 then
      .argpError "--kernel-process: PID must be a positive integer" cfg
    else .ok { cfg with opt_kernel_pid := v }
  | .compatible, _ =>
    .ok { cfg with opt_clk_tck := 100, opt_stat_mode := 0o444, opt_fake_self := 1 }
  | .anonOwner, some a =>
    match pwdb a with
    | some uid => .ok { cfg with opt_anon_owner := uid }
    | none =>
      let v := (strtol a 0).1
      let endp := (strtol a 0).2
      if endp ≠ [] ∨ a = [] ∨ v < 0 then
        .argpError "--anonymous-owner: USER should be a user name or a numeric UID." cfg
      else .ok { cfg with opt_anon_owner := toU32 v }
  | _, _ => .unknownKey cfg

/-- Model of `runtime_argp_parser` of main.c (lines 184-198): 'u' (--update) does
nothing; everything else returns `ARGP_ERR_UNKNOWN`. -/
def runtime_argp_parse_key (key : ArgKey) (cfg : Config) : Outcome :=
  match key with
  | .update => .ok cfg
  | _ => .unknownKey cfg

/-- Runtime option handling: main.c line 220 sets
`struct argp *netfs_runtime_argp = &argp;`, i.e. the runtime option
surface used by `netfs_set_options` is the very same `argp` used at
startup, whose parser is `argp_parser` over `common_options`. -/
def netfs_runtime_parse (pwdb : List Char → Option Nat) (key : ArgKey)
    (arg : Option (List Char)) (cfg : Config) : Outcome :=
  argp_parse_key pwdb key arg cfg

/-- An empty password database (no user names resolve). -/
def pwdbEmpty : List Char → Option Nat := fun _ => none

/-! ### Root node construction (main.c `root_make_node` and `main`) -/

/-- The libps context handle (`struct ps_context`), opaque to main.c. -/
structure ps_context where
  procServerPort : Nat
deriving DecidableEq, Repr

/-- The provider structure of a synthetic filesystem node, as far as
main.c manipulates it: the Process Subtree Provider node, the Root Info
Provider node, and the Directory Composer node over an ordered child
list (each child paired with its inode number). -/
inductive NodeTree
  | proclistDir : ps_context → NodeTree
  | rootdirDir : ps_context → NodeTree
  | dircatDir : List (NodeTree × Nat) → NodeTree

/-- A `struct node` as main.c sees it: its provider structure together
with its `nn_stat.st_ino` field. -/
def Node := NodeTree × Nat

/-- The node's `nn_stat.st_ino` field. -/
def Node.st_ino (n : Node) : Nat := n.2

/-- Assignment `node->nn_stat.st_ino = i`. -/
def Node.setIno (n : Node) (i : Nat) : Node := (n.1, i)

/-- Modelled from the spec: `proclist_make_node` lives in proclist.c,
which is not under src/.  It builds the Process Subtree Provider node
against the Process Source handle.  Its own inode assignment happens
inside proclist.c and is irrelevant to the claims; a placeholder 0 is
used. -/
def proclist_make_node (pc : ps_context) : Node := (NodeTree.proclistDir pc, 0)

/-- Modelled from the spec: `rootdir_make_node` lives in rootdir.c, which
is not under src/.  It builds the Root Info Provider node.  Placeholder
inode as for `proclist_make_node`. -/
def rootdir_make_node (pc : ps_context) : Node := (NodeTree.rootdirDir pc, 0)

/-- Modelled from the spec: `dircat_make_node` lives in dircat.c, which is
not under src/.  The Directory Composer is constructed from an ordered
list of child providers; on resource exhaustion (allocation failure) it
yields no node.  Allocation success is a parameter `allocOk`. -/
def dircat_make_node (allocOk : Bool) (dirs : List Node) : Option Node :=
  if allocOk then some (NodeTree.dircatDir dirs, 0) else none

/-- The `errno` value ENOMEM. -/
def ENOMEM : Nat := 12

/-- The constant `* (uint32_t *) "PROC"` of main.c line 277: the 32-bit
word whose four bytes are 'P','R','O','C' (little-endian byte order on
the translator's x86 targets, so 'P' is the least significant byte). -/
def procRootIno : Nat :=
  'P'.toNat + 2 ^ 8 * 'R'.toNat + 2 ^ 16 * 'O'.toNat + 2 ^ 24 * 'C'.toNat

/-- Model of `root_make_node` of main.c (lines 263-280): compose the proclist and
rootdir nodes, in that order, under one dircat node; return ENOMEM if
dircat yields no node; otherwise assign the out-of-band root inode and
return 0 with the node. -/
def root_make_node (allocOk : Bool) (pc : ps_context) : Except Nat Node :=
  let root_dirs := [proclist_make_node pc, rootdir_make_node pc]
  match dircat_make_node allocOk root_dirs with
  | none => .error ENOMEM
  | some np => .ok (np.setIno procRootIno)

/-- What `main` does with `root_make_node`'s result (lines 306-311):
`error (1, err, ...)` terminates the process with exit code 1 on failure;
on success the node becomes `netfs_root_node` and the server starts. -/
inductive StartupOutcome
  | fatalExit : Nat → StartupOutcome
  | running : Node → StartupOutcome

/-- The root-construction step of `main` (lines 306-310). -/
def main_startup_root (allocOk : Bool) (pc : ps_context) : StartupOutcome :=
  match root_make_node allocOk pc with
  | .error _ => .fatalExit 1
  | .ok n => .running n

/-! ### Option printing (`netfs_append_args`) and its round trip -/

/-- The digit character for `n < 10` (as printf renders digits). -/
def digitChar (n : Nat) : Char := Char.ofNat (48 + n)

/-- Base-`b` rendering, fuel-driven recursion (the fuel only bounds the
digit count; `natToBase` supplies `n` itself, which always suffices for
`2 ≤ b`). -/
def natToBaseAux (b : Nat) : Nat → Nat → List Char
  | 0, n => [digitChar (n % b)]
  | fuel + 1, n =>
    if n < b then [digitChar (n % b)]
    else natToBaseAux b fuel (n / b) ++ [digitChar (n % b)]

/-- Base-`b` rendering of a natural number, most significant digit first,
as printf's `%d`/`%o` render nonnegative values (meaningful for
`2 ≤ b ≤ 10`). -/
def natToBase (b : Nat) (n : Nat) : List Char := natToBaseAux b n n

/-- printf `%d` of a nonnegative value. -/
def natDec (n : Nat) : List Char := natToBase 10 n

/-- printf `%o`. -/
def natOct (n : Nat) : List Char := natToBase 8 n

/-- printf `%d` of a signed value. -/
def intDec (v : Int) : List Char :=
  if v < 0 then '-' :: natDec (-v).toNat else natDec v.toNat

/-- The argz element `--name=arg` that `snprintf` builds for one option. -/
def renderLongOpt (name arg : List Char) : List Char :=
  '-' :: '-' :: (name ++ '=' :: arg)

/-- Model of `netfs_append_args` of main.c (lines 225-261): for each of the five
option variables, in the fixed source order, append `--name=value` when
the current value differs from its startup default (the `FOPT` macro);
`argz_add` allocation failure is not modelled (the claims presume the
appends succeed).  The trailing `netfs_append_std_options` concerns the
standard netfs options, outside this option set. -/
def netfs_append_args (sc_clk_tck : Int) (cfg : Config) : List (List Char) :=
  (if cfg.opt_clk_tck ≠ sc_clk_tck then
    [renderLongOpt "clk-tck".data (intDec cfg.opt_clk_tck)] else [])
  ++ (if cfg.opt_stat_mode ≠ 0o400 then
    [renderLongOpt "stat-mode".data (natOct cfg.opt_stat_mode)] else [])
  ++ (if cfg.opt_fake_self ≠ -1 then
    [renderLongOpt "fake-self".data (intDec cfg.opt_fake_self)] else [])
  ++ (if cfg.opt_anon_owner ≠ 0 then
    [renderLongOpt "anonymous-owner".data (natDec cfg.opt_anon_owner)] else [])
  ++ (if cfg.opt_kernel_pid ≠ 2 then
    [renderLongOpt "kernel-process".data (intDec cfg.opt_kernel_pid)] else [])

/-- The five printed knobs in the fixed order `netfs_append_args` visits
them. -/
def knobOrder : List ArgKey :=
  [.clkTck, .statMode, .fakeSelf, .anonOwner, .kernelProc]

/-- The current value of a printed knob, as an integer. -/
def knobValue (k : ArgKey) (cfg : Config) : Int :=
  match k with
  | .clkTck => cfg.opt_clk_tck
  | .statMode => (cfg.opt_stat_mode : Int)
  | .fakeSelf => cfg.opt_fake_self
  | .anonOwner => (cfg.opt_anon_owner : Int)
  | .kernelProc => cfg.opt_kernel_pid
  | _ => 0

/-- The startup default a printed knob is compared against. -/
def knobDefault (sc_clk_tck : Int) (k : ArgKey) : Int :=
  match k with
  | .clkTck => sc_clk_tck
  | .statMode => 0o400
  | .fakeSelf => -1
  | .anonOwner => 0
  | .kernelProc => 2
  | _ => 0

/-- The long option name of a printed knob. -/
def knobName (k : ArgKey) : List Char :=
  match k with
  | .clkTck => "clk-tck".data
  | .statMode => "stat-mode".data
  | .fakeSelf => "fake-self".data
  | .anonOwner => "anonymous-owner".data
  | .kernelProc => "kernel-process".data
  | _ => []

/-- The printf rendering of a printed knob's current value. -/
def renderKnob (cfg : Config) (k : ArgKey) : List Char :=
  match k with
  | .clkTck => intDec cfg.opt_clk_tck
  | .statMode => natOct cfg.opt_stat_mode
  | .fakeSelf => intDec cfg.opt_fake_self
  | .anonOwner => natDec cfg.opt_anon_owner
  | .kernelProc => intDec cfg.opt_kernel_pid
  | _ => []

/-- The (key, argument) pairs corresponding to `netfs_append_args`'s
output: one per knob differing from its default, in knob order. -/
def emittedPairs (sc_clk_tck : Int) (cfg : Config) : List (ArgKey × List Char) :=
  (knobOrder.filter (fun k => knobValue k cfg ≠ knobDefault sc_clk_tck k)).map
    (fun k => (k, renderKnob cfg k))

/-! ### Spec-side predicates and concrete test data -/

/-- Following the spec's words: the whole argument string parses (per the
`strtol` grammar) as an integer with value `v` and is strictly positive. -/
def wholeParsesPos (a : List Char) (v : Int) : Prop :=
  strtol a 0 = (v, []) ∧ a ≠ [] ∧ 0 < v

/-- Following the spec's words: the whole argument string parses as an
integer with nonnegative value `v`. -/
def wholeParsesNonneg (a : List Char) (v : Int) : Prop :=
  strtol a 0 = (v, []) ∧ a ≠ [] ∧ 0 ≤ v

/-- Following the spec's words: the whole argument string parses as an
integer with value `v` (any sign). -/
def wholeParsesInt (a : List Char) (v : Int) : Prop :=
  strtol a 0 = (v, []) ∧ a ≠ []

/-- The claim that no runtime option handling reachable through
`netfs_runtime_argp` mutates any of the five policy variables. -/
def runtimePolicyImmutable : Prop :=
  ∀ pwdb key arg cfg, (netfs_runtime_parse pwdb key arg cfg).config = cfg

/-- A configuration whose clock-tick knob holds a nonpositive value
(differing from a startup default of 100). -/
def cfgNegClk : Config :=
  { opt_clk_tck := -5
    opt_stat_mode := 0o400
    opt_fake_self := -1
    opt_kernel_pid := 2
    opt_anon_owner := 0 }

/-- A password database with a single user "bob" of uid 42. -/
def pwdbBob : List Char → Option Nat :=
  fun s => if s = "bob".data then some 42 else none

/-- A concrete non-default configuration within every parser's accepted
range, for witnessing the round-trip theorem. -/
def cfgCompat : Config :=
  { opt_clk_tck := 100
    opt_stat_mode := 0o444
    opt_fake_self := 1
    opt_kernel_pid := 2
    opt_anon_owner := 0 }

/-! ### Auxiliary lemmas: printf rendering parses back through `strtol` -/

theorem digitValue_digitChar {k : Nat} (hk : k < 10) : digitValue (digitChar k) = k := by
  interval_cases k <;> decide

theorem isSpaceChar_eq_false {c : Char} (h : digitValue c < 16) : isSpaceChar c = false := by
  by_contra hs
  rw [Bool.not_eq_false] at hs
  simp only [isSpaceChar, Bool.or_eq_true, beq_iff_eq] at hs
  rcases hs with ((((h1 | h1) | h1) | h1) | h1) | h1 <;> subst h1 <;> exact absurd h (by decide)

theorem digit_beq_dash {c : Char} (h : digitValue c < 16) : (c == '-') = false := by
  rw [beq_eq_false_iff_ne]
  rintro rfl
  exact absurd h (by decide)

theorem digit_beq_plus {c : Char} (h : digitValue c < 16) : (c == '+') = false := by
  rw [beq_eq_false_iff_ne]
  rintro rfl
  exact absurd h (by decide)

theorem hexPfx_cons_eq_false {c : Char} (t : List Char) (h : (c == '0') = false) :
    hexPfx (c :: t) = false := by
  cases t <;> simp [hexPfx, h]

theorem startsZero_cons (c : Char) (t : List Char) : startsZero (c :: t) = (c == '0') := rfl

theorem parseDigitsAux_append_natToBaseAux (b : Nat) (hb2 : 2 ≤ b) (hb10 : b ≤ 10) :
    ∀ fuel n acc ys, n ≤ fuel →
      parseDigitsAux b acc (natToBaseAux b fuel n ++ ys)
        = parseDigitsAux b (acc * b ^ (natToBaseAux b fuel n).length + n) ys := by
  intro fuel
  induction fuel with
  | zero =>
    intro n acc ys hn
    interval_cases n
    have hd : digitValue (digitChar 0) = 0 := digitValue_digitChar (by omega)
    simp [natToBaseAux, parseDigitsAux, isBaseDigit, Nat.zero_mod, hd, show 0 < b by omega]
  | succ fuel ih =>
    intro n acc ys hn
    by_cases h : n < b
    · have hnat : natToBaseAux b (fuel + 1) n = [digitChar n] := by
        rw [natToBaseAux, if_pos h, Nat.mod_eq_of_lt h]
      have hd : digitValue (digitChar n) = n := digitValue_digitChar (lt_of_lt_of_le h hb10)
      rw [hnat]
      simp [parseDigitsAux, isBaseDigit, hd, h]
    · have hble : b ≤ n := le_of_not_lt h
      have hnat : natToBaseAux b (fuel + 1) n
          = natToBaseAux b fuel (n / b) ++ [digitChar (n % b)] := by
        rw [natToBaseAux, if_neg h]
      have hmod : n % b < b := Nat.mod_lt _ (by omega)
      have hd : digitValue (digitChar (n % b)) = n % b :=
        digitValue_digitChar (lt_of_lt_of_le hmod hb10)
      have hfuel : n / b ≤ fuel := by
        have := Nat.div_lt_self (show 0 < n by omega) (show 1 < b by omega)
        omega
      rw [hnat, List.append_assoc, ih (n / b) acc ([digitChar (n % b)] ++ ys) hfuel]
      simp only [List.cons_append, List.nil_append]
      rw [show parseDigitsAux b (acc * b ^ (natToBaseAux b fuel (n / b)).length + n / b)
            (digitChar (n % b) :: ys)
          = parseDigitsAux b
              ((acc * b ^ (natToBaseAux b fuel (n / b)).length + n / b) * b + n % b) ys by
        simp [parseDigitsAux, isBaseDigit, hd, hmod]]
      congr 1
      rw [List.length_append, List.length_singleton, pow_succ]
      have hdm := Nat.div_add_mod n b
      ring_nf
      ring_nf at hdm
      omega

theorem natToBaseAux_cons (b : Nat) (hb2 : 2 ≤ b) (hb10 : b ≤ 10) :
    ∀ fuel n, n ≤ fuel →
      ∃ c t, natToBaseAux b fuel n = c :: t ∧ digitValue c < b ∧ (n ≠ 0 → c ≠ '0') := by
  intro fuel
  induction fuel with
  | zero =>
    intro n hn
    interval_cases n
    refine ⟨digitChar (0 % b), [], rfl, ?_, fun hne => absurd rfl hne⟩
    rw [Nat.zero_mod, digitValue_digitChar (by omega)]
    omega
  | succ fuel ih =>
    intro n hn
    by_cases h : n < b
    · refine ⟨digitChar n, [], ?_, ?_, ?_⟩
      · rw [natToBaseAux, if_pos h, Nat.mod_eq_of_lt h]
      · rw [digitValue_digitChar (lt_of_lt_of_le h hb10)]; exact h
      · intro hne heq
        apply hne
        have := digitValue_digitChar (lt_of_lt_of_le h hb10)
        rw [heq] at this
        simpa [digitValue] using this.symm
    · have hble : b ≤ n := le_of_not_lt h
      have hfuel : n / b ≤ fuel := by
        have := Nat.div_lt_self (show 0 < n by omega) (show 1 < b by omega)
        omega
      obtain ⟨c, t, hct, hdig, hz⟩ := ih (n / b) hfuel
      refine ⟨c, t ++ [digitChar (n % b)], ?_, hdig, fun _ => ?_⟩
      · rw [natToBaseAux, if_neg h, hct]
        rfl
      · exact hz (by
          have : 1 ≤ n / b := (Nat.one_le_div_iff (by omega)).mpr hble
          omega)

theorem natToBase_cons (b : Nat) (hb2 : 2 ≤ b) (hb10 : b ≤ 10) (n : Nat) :
    ∃ c t, natToBase b n = c :: t ∧ digitValue c < b ∧ (n ≠ 0 → c ≠ '0') :=
  natToBaseAux_cons b hb2 hb10 n n le_rfl

theorem parseDigits_natToBase (b : Nat) (hb2 : 2 ≤ b) (hb10 : b ≤ 10) (n : Nat) :
    parseDigits b (natToBase b n) = some (n, []) := by
  obtain ⟨c, t, hct, hdig, -⟩ := natToBase_cons b hb2 hb10 n
  have h1 := parseDigitsAux_append_natToBaseAux b hb2 hb10 n n 0 [] le_rfl
  rw [List.append_nil] at h1
  rw [show natToBaseAux b n n = natToBase b n from rfl] at h1
  rw [hct] at h1
  simp only [parseDigitsAux, isBaseDigit, hdig, decide_eq_true_eq, if_pos, Nat.zero_mul,
    Nat.zero_add] at h1
  rw [hct]
  simp only [parseDigits, isBaseDigit, hdig, decide_eq_true_eq, if_pos]
  rw [h1]

theorem strtolFrom_natToBase (b : Nat) (hb2 : 2 ≤ b) (hb10 : b ≤ 10) (neg : Bool) (n : Nat)
    (orig : List Char) :
    strtolFrom b neg (natToBase b n) orig = (if neg then -(n : Int) else (n : Int), []) := by
  rw [strtolFrom, parseDigits_natToBase b hb2 hb10 n]

theorem strtol_cons_digit {c : Char} (t : List Char) (b : Nat) (h : digitValue c < 16) :
    strtol (c :: t) b = strtolCore b false (c :: t) (c :: t) := by
  rw [strtol]
  rw [List.dropWhile_cons_of_neg (by rw [isSpaceChar_eq_false h]; exact Bool.false_ne_true)]
  simp [digit_beq_dash h, digit_beq_plus h]

theorem strtol_natOct (m : Nat) : strtol (natOct m) 8 = ((m : Int), []) := by
  obtain ⟨c, t, hct, hdig, -⟩ := natToBase_cons 8 (by norm_num) (by norm_num) m
  have h16 : digitValue c < 16 := lt_of_lt_of_le hdig (by norm_num)
  rw [natOct, hct, strtol_cons_digit t 8 h16, strtolCore]
  norm_num
  rw [← hct, strtolFrom_natToBase 8 (by norm_num) (by norm_num) false m]
  simp

theorem strtolCore_zero_natDec (neg : Bool) (n : Nat) (h0 : n ≠ 0) (orig : List Char) :
    strtolCore 0 neg (natDec n) orig = (if neg then -(n : Int) else (n : Int), []) := by
  obtain ⟨c, t, hct, hdig, hz⟩ := natToBase_cons 10 (by norm_num) (by norm_num) n
  have hz' : (c == '0') = false := beq_eq_false_iff_ne.mpr (hz h0)
  rw [natDec, hct, strtolCore]
  norm_num
  rw [hexPfx_cons_eq_false t hz', startsZero_cons, hz']
  norm_num
  rw [← hct, strtolFrom_natToBase 10 (by norm_num) (by norm_num) neg n]

theorem strtol_natDec (n : Nat) : strtol (natDec n) 0 = ((n : Int), []) := by
  by_cases h0 : n = 0
  · subst h0; decide
  · obtain ⟨c, t, hct, hdig, -⟩ := natToBase_cons 10 (by norm_num) (by norm_num) n
    have h16 : digitValue c < 16 := lt_of_lt_of_le hdig (by norm_num)
    rw [natDec, hct, strtol_cons_digit t 0 h16, ← hct, ← natDec,
      strtolCore_zero_natDec false n h0]
    simp

theorem strtol_intDec (v : Int) : strtol (intDec v) 0 = (v, []) := by
  rcases lt_or_le v 0 with hv | hv
  · rw [intDec, if_pos hv]
    have h0 : (-v).toNat ≠ 0 := by omega
    rw [strtol]
    rw [List.dropWhile_cons_of_neg (by decide)]
    simp only [beq_self_eq_true, if_pos]
    rw [strtolCore_zero_natDec true ((-v).toNat) h0]
    simp only [if_pos]
    rw [Prod.mk.injEq]
    constructor
    · omega
    · rfl
  · rw [intDec, if_neg (not_lt.mpr hv), strtol_natDec, Int.toNat_of_nonneg hv]

theorem toU32_coe_of_lt {m : Nat} (h : m < 2 ^ 32) : toU32 (m : Int) = m := by
  rw [toU32, Int.emod_eq_of_lt (by positivity) (by exact_mod_cast h)]
  exact Int.toNat_natCast m

theorem natDec_ne_nil (n : Nat) : natDec n ≠ [] := by
  obtain ⟨c, t, hct, -, -⟩ := natToBase_cons 10 (by norm_num) (by norm_num) n
  rw [natDec, hct]
  exact List.cons_ne_nil c t

theorem natOct_ne_nil (n : Nat) : natOct n ≠ [] := by
  obtain ⟨c, t, hct, -, -⟩ := natToBase_cons 8 (by norm_num) (by norm_num) n
  rw [natOct, hct]
  exact List.cons_ne_nil c t

theorem intDec_ne_nil (v : Int) : intDec v ≠ [] := by
  rw [intDec]
  split
  · exact List.cons_ne_nil _ _
  · exact natDec_ne_nil v.toNat

/-! ### Claim theorems -/

/-- C1 (code bug): `argp_parser`'s 'k' case is supposed to reject
non-positive `--kernel-process` arguments (its own error message reads
"PID must be a positive integer"), but its guard tests the PREVIOUS value
`(signed) opt_kernel_pid < 0` instead of the freshly parsed `v`; starting
from the defaults (`opt_kernel_pid = 2`), the argument "-5" is accepted
and the kernel process id becomes -5. -/
theorem kernel_pid_guard_bug :
    argp_parse_key pwdbEmpty .kernelProc (some ['-', '5']) (defaultConfig 100)
      = .ok { defaultConfig 100 with opt_kernel_pid := -5 }
    ∧ (defaultConfig 100).opt_kernel_pid = 2 := by
  constructor <;> decide

/-- C2 (counterexample): it is not true that option handling reachable at
runtime through `netfs_runtime_argp` leaves the five policy variables
unchanged: `netfs_runtime_argp` is `&argp`, so a runtime `--clk-tck=50`
goes through `argp_parser` and mutates `opt_clk_tck`. -/
theorem runtime_mutates_policy : ¬ runtimePolicyImmutable := fun h =>
  absurd (h pwdbEmpty .clkTck (some ['5', '0']) (defaultConfig 100)) (by decide)

/-- C2 (amended): runtime option handling via `netfs_runtime_argp` reuses
the startup `argp_parser`, so the policy values CAN change after startup:
from any state, a runtime `--clk-tck=50` sets `opt_clk_tck` to 50; only
the runtime-specific 'u' (--update) key of `runtime_argp` mutates
nothing. -/
theorem runtime_clk_tck_mutation (pwdb : List Char → Option Nat) (cfg : Config) :
    netfs_runtime_parse pwdb .clkTck (some ['5', '0']) cfg
      = .ok { cfg with opt_clk_tck := 50 }
    ∧ runtime_argp_parse_key .update cfg = .ok cfg :=
  ⟨rfl, rfl⟩

/-- C3: every successful `root_make_node` call returns a root node whose
`st_ino` is the fixed out-of-band constant `* (uint32_t *) "PROC"`, the
32-bit word formed from the four bytes 'P', 'R', 'O', 'C' (little-endian
byte order). -/
theorem root_node_st_ino (allocOk : Bool) (pc : ps_context) (np : Node)
    (h : root_make_node allocOk pc = .ok np) :
    np.st_ino = 'P'.toNat + 2 ^ 8 * 'R'.toNat + 2 ^ 16 * 'O'.toNat + 2 ^ 24 * 'C'.toNat := by
  cases allocOk
  · exact absurd h (by simp [root_make_node, dircat_make_node])
  · have hnp : (NodeTree.dircatDir [proclist_make_node pc, rootdir_make_node pc],
        procRootIno) = np := by
      simpa [root_make_node, dircat_make_node, Node.setIno] using h
    rw [← hnp]
    rfl

/-- Witness for C3 at a concrete process-source context. -/
theorem root_node_st_ino_witness :
    Node.st_ino (NodeTree.dircatDir [proclist_make_node ⟨0⟩, rootdir_make_node ⟨0⟩],
        procRootIno)
      = 'P'.toNat + 2 ^ 8 * 'R'.toNat + 2 ^ 16 * 'O'.toNat + 2 ^ 24 * 'C'.toNat :=
  root_node_st_ino true ⟨0⟩ _ rfl

/-- C4: every successful `root_make_node` call composes exactly two child
providers, in construction order — first the proclist node, then the
rootdir node — under a single dircat node, which `main` installs as the
filesystem root. -/
theorem root_node_composition (allocOk : Bool) (pc : ps_context) (np : Node)
    (h : root_make_node allocOk pc = .ok np) :
    np = (NodeTree.dircatDir [proclist_make_node pc, rootdir_make_node pc], procRootIno)
    ∧ main_startup_root allocOk pc = .running np := by
  cases allocOk
  · exact absurd h (by simp [root_make_node, dircat_make_node])
  · have hnp : (NodeTree.dircatDir [proclist_make_node pc, rootdir_make_node pc],
        procRootIno) = np := by
      simpa [root_make_node, dircat_make_node, Node.setIno] using h
    refine ⟨hnp.symm, ?_⟩
    rw [main_startup_root, h]

/-- Witness for C4 at a concrete process-source context. -/
theorem root_node_composition_witness :
    ((NodeTree.dircatDir [proclist_make_node ⟨1⟩, rootdir_make_node ⟨1⟩], procRootIno) : Node)
        = (NodeTree.dircatDir [proclist_make_node ⟨1⟩, rootdir_make_node ⟨1⟩], procRootIno)
    ∧ main_startup_root true ⟨1⟩
        = .running (NodeTree.dircatDir [proclist_make_node ⟨1⟩, rootdir_make_node ⟨1⟩],
            procRootIno) :=
  root_node_composition true ⟨1⟩ _ rfl

/-- C5: when the Directory Composer allocation fails (`dircat_make_node`
yields no node), `root_make_node` returns ENOMEM and `main` terminates
fatally; on success it returns 0 with a root node, and the server
proceeds to run with that node. -/
theorem root_node_enomem (pc : ps_context) :
    (root_make_node false pc = .error ENOMEM ∧ main_startup_root false pc = .fatalExit 1)
    ∧ ∃ np, root_make_node true pc = .ok np ∧ main_startup_root true pc = .running np :=
  ⟨⟨rfl, rfl⟩, _, rfl, rfl⟩

/-- C6: the `--clk-tck` ('h') argument is accepted exactly when the whole
string parses (per the `strtol` grammar) as a strictly positive integer;
on acceptance `opt_clk_tck` becomes the parsed value, otherwise
`argp_error` is raised and the configuration is unchanged. -/
theorem clk_tck_accepts_iff_positive (pwdb : List Char → Option Nat) (a : List Char)
    (cfg : Config) :
    (∃ v, wholeParsesPos a v
      ∧ argp_parse_key pwdb .clkTck (some a) cfg = .ok { cfg with opt_clk_tck := v })
    ∨ ((¬ ∃ v, wholeParsesPos a v)
      ∧ argp_parse_key pwdb .clkTck (some a) cfg
          = .argpError "--clk-tck: HZ should be a positive integer" cfg) := by
  by_cases hc : (strtol a 0).2 ≠ [] ∨ a = [] ∨ (strtol a 0).1 ≤ 0
  · right
    refine ⟨?_, ?_⟩
    · rintro ⟨v, hs, hne, hpos⟩
      rw [hs] at hc
      rcases hc with h | h | h
      · exact h rfl
      · exact hne h
      · exact absurd hpos (not_lt.mpr h)
    · simp only [argp_parse_key]
      rw [if_pos hc]
  · left
    have hc' := hc
    push_neg at hc'
    obtain ⟨h1, h2, h3⟩ := hc'
    refine ⟨(strtol a 0).1, ⟨Prod.ext rfl h1, h2, h3⟩, ?_⟩
    simp only [argp_parse_key]
    rw [if_neg hc]

/-- C7: for `--anonymous-owner` ('a'): a string naming a user in the
password database sets `opt_anon_owner` to that user's uid; otherwise a
string that wholly parses as a nonnegative integer sets it to that value
(converted to `uid_t`); any other string raises an argp error; and
before any option is parsed the anonymous owner defaults to uid 0. -/
theorem anon_owner_policy (pwdb : List Char → Option Nat) (a : List Char) (cfg : Config)
    (sc : Int) :
    ((∃ uid, pwdb a = some uid
        ∧ argp_parse_key pwdb .anonOwner (some a) cfg = .ok { cfg with opt_anon_owner := uid })
      ∨ (pwdb a = none ∧ ∃ v, wholeParsesNonneg a v
        ∧ argp_parse_key pwdb .anonOwner (some a) cfg
            = .ok { cfg with opt_anon_owner := toU32 v })
      ∨ (pwdb a = none ∧ (¬ ∃ v, wholeParsesNonneg a v)
        ∧ argp_parse_key pwdb .anonOwner (some a) cfg
            = .argpError "--anonymous-owner: USER should be a user name or a numeric UID." cfg))
    ∧ (defaultConfig sc).opt_anon_owner = 0 := by
  refine ⟨?_, rfl⟩
  cases hpw : pwdb a with
  | some uid =>
    left
    exact ⟨uid, rfl, by simp only [argp_parse_key, hpw]⟩
  | none =>
    by_cases hc : (strtol a 0).2 ≠ [] ∨ a = [] ∨ (strtol a 0).1 < 0
    · right; right
      refine ⟨rfl, ?_, ?_⟩
      · rintro ⟨v, hs, hne, hnn⟩
        rw [hs] at hc
        rcases hc with h | h | h
        · exact h rfl
        · exact hne h
        · exact absurd hnn (not_le.mpr h)
      · simp only [argp_parse_key, hpw]
        rw [if_pos hc]
    · right; left
      have hc' := hc
      push_neg at hc'
      obtain ⟨h1, h2, h3⟩ := hc'
      refine ⟨rfl, (strtol a 0).1, ⟨Prod.ext rfl h1, h2, h3⟩, ?_⟩
      simp only [argp_parse_key, hpw]
      rw [if_neg hc]

/-- C8: `--fake-self` ('S') with an argument that wholly parses as an
integer (any sign) sets the self-alias target to that pid; given without
an argument it sets the target to pid 1; and when never given the target
keeps its startup default -1 (no self link). -/
theorem fake_self_policy (pwdb : List Char → Option Nat) (cfg : Config) (sc : Int) :
    (∀ a, (∃ v, wholeParsesInt a v
        ∧ argp_parse_key pwdb .fakeSelf (some a) cfg = .ok { cfg with opt_fake_self := v })
      ∨ ((¬ ∃ v, wholeParsesInt a v)
        ∧ argp_parse_key pwdb .fakeSelf (some a) cfg
            = .argpError "--fake-self: PID must be an integer" cfg))
    ∧ argp_parse_key pwdb .fakeSelf none cfg = .ok { cfg with opt_fake_self := 1 }
    ∧ (defaultConfig sc).opt_fake_self = -1 := by
  refine ⟨?_, rfl, rfl⟩
  intro a
  by_cases hc : (strtol a 0).2 ≠ [] ∨ a = []
  · right
    refine ⟨?_, ?_⟩
    · rintro ⟨v, hs, hne⟩
      rw [hs] at hc
      rcases hc with h | h
      · exact h rfl
      · exact hne h
    · simp only [argp_parse_key]
      rw [if_pos hc]
  · left
    have hc' := hc
    push_neg at hc'
    obtain ⟨h1, h2⟩ := hc'
    refine ⟨(strtol a 0).1, ⟨Prod.ext rfl h1, h2⟩, ?_⟩
    simp only [argp_parse_key]
    rw [if_neg hc]

/-- C9: the `NODEV_KEY`, `NOEXEC_KEY` and `NOSUID_KEY` cases of
`argp_parser` (the `--nodev`/`--noexec`/`--nosuid` options, documented as
ignored for Linux compatibility) contain no `break` and fall through into
the `default` branch, returning `ARGP_ERR_UNKNOWN` instead of the 0 a
handled option returns. -/
theorem ignored_compat_opts_unknown (pwdb : List Char → Option Nat)
    (arg : Option (List Char)) (cfg : Config) :
    argp_parse_key pwdb .nodev arg cfg = .unknownKey cfg
    ∧ argp_parse_key pwdb .noexec arg cfg = .unknownKey cfg
    ∧ argp_parse_key pwdb .nosuid arg cfg = .unknownKey cfg
    ∧ ∀ c : Config, argp_parse_key pwdb .nodev arg cfg ≠ .ok c := by
  refine ⟨?_, ?_, ?_, ?_⟩ <;> cases arg <;> simp [argp_parse_key]

/-- C10 (counterexample): the print–parse round trip fails at the
configuration whose `opt_clk_tck` is -5 (with a startup default of 100):
`netfs_append_args` emits exactly `--clk-tck=-5`, but re-parsing that
option through `argp_parser` raises the argp error instead of restoring
the knob. -/
theorem append_args_roundtrip_cex :
    netfs_append_args 100 cfgNegClk = [renderLongOpt "clk-tck".data ['-', '5']]
    ∧ intDec cfgNegClk.opt_clk_tck = ['-', '5']
    ∧ argp_parse_key pwdbEmpty .clkTck (some ['-', '5']) cfgNegClk
        = .argpError "--clk-tck: HZ should be a positive integer" cfgNegClk := by
  refine ⟨by decide, by decide, by decide⟩

/-- C10 (amended): for every configuration state, `netfs_append_args`
appends, in fixed order (clk-tck, stat-mode, fake-self, anonymous-owner,
kernel-process), exactly one option string per knob differing from its
startup default and none for a knob at its default; and — provided each
knob value lies in the range its own parser accepts (clk-tck positive,
stat-mode within 0o7777, anonymous-owner below 2^31 and not shadowed in
the password database, kernel-process nonnegative) — re-parsing each
emitted option through `argp_parser` restores the same knob value. -/
theorem netfs_append_args_roundtrip (pwdb : List Char → Option Nat) (sc : Int) (cfg : Config) :
    netfs_append_args sc cfg
      = (emittedPairs sc cfg).map (fun p => renderLongOpt (knobName p.1) p.2)
    ∧ (0 < cfg.opt_clk_tck →
       cfg.opt_stat_mode < 0o10000 →
       cfg.opt_anon_owner < 2 ^ 31 →
       (pwdb (natDec cfg.opt_anon_owner) = none
         ∨ pwdb (natDec cfg.opt_anon_owner) = some cfg.opt_anon_owner) →
       0 ≤ cfg.opt_kernel_pid →
       ∀ p ∈ emittedPairs sc cfg, ∃ cfg',
         argp_parse_key pwdb p.1 (some p.2) cfg = .ok cfg'
         ∧ knobValue p.1 cfg' = knobValue p.1 cfg) := by
  constructor
  · have e2 : ((cfg.opt_stat_mode : Int) = 256) ↔ cfg.opt_stat_mode = 256 := by
      exact_mod_cast Iff.rfl
    have e4 : ((cfg.opt_anon_owner : Int) = 0) ↔ cfg.opt_anon_owner = 0 := by
      exact_mod_cast Iff.rfl
    simp only [netfs_append_args, emittedPairs, knobOrder, knobValue, knobDefault,
      renderKnob, knobName, List.filter, List.map]
    by_cases h1 : cfg.opt_clk_tck = sc <;>
      by_cases h2 : cfg.opt_stat_mode = 256 <;>
      by_cases h3 : cfg.opt_fake_self = -1 <;>
      by_cases h4 : cfg.opt_anon_owner = 0 <;>
      by_cases h5 : cfg.opt_kernel_pid = 2 <;>
      simp [h1, h2, h3, h4, h5, e2, e4]
  · intro hclk hmode hanon hpw hkern p hp
    simp only [emittedPairs, List.mem_map, List.mem_filter] at hp
    obtain ⟨k, ⟨hkmem, -⟩, rfl⟩ := hp
    simp only [knobOrder, List.mem_cons, List.not_mem_nil, or_false] at hkmem
    rcases hkmem with rfl | rfl | rfl | rfl | rfl
    · -- clk-tck: parses back, and the guard v ≤ 0 fails since 0 < opt_clk_tck
      refine ⟨{ cfg with opt_clk_tck := cfg.opt_clk_tck }, ?_, rfl⟩
      simp only [renderKnob, argp_parse_key, strtol_intDec]
      rw [if_neg (by
        push_neg
        exact ⟨rfl, intDec_ne_nil _, by omega⟩)]
    · -- stat-mode: octal rendering parses back in base 8, within 0o7777
      refine ⟨{ cfg with opt_stat_mode := cfg.opt_stat_mode }, ?_, rfl⟩
      simp only [renderKnob, argp_parse_key, strtol_natOct,
        toU32_coe_of_lt (lt_trans hmode (by norm_num))]
      rw [if_neg (by
        push_neg
        exact ⟨rfl, natOct_ne_nil _, by omega⟩)]
    · -- fake-self: any integer parses back
      refine ⟨{ cfg with opt_fake_self := cfg.opt_fake_self }, ?_, rfl⟩
      simp only [renderKnob, argp_parse_key, strtol_intDec]
      rw [if_neg (by
        push_neg
        exact ⟨rfl, intDec_ne_nil _⟩)]
    · -- anonymous-owner: resolved by the database to itself, or parsed back
      rcases hpw with hpw | hpw
      · refine ⟨{ cfg with opt_anon_owner := cfg.opt_anon_owner }, ?_, rfl⟩
        simp only [renderKnob, argp_parse_key, hpw, strtol_natDec,
          toU32_coe_of_lt (lt_trans hanon (by norm_num))]
        rw [if_neg (by
          push_neg
          exact ⟨rfl, natDec_ne_nil _, by positivity⟩)]
      · exact ⟨{ cfg with opt_anon_owner := cfg.opt_anon_owner },
          by simp only [renderKnob, argp_parse_key, hpw], rfl⟩
    · -- kernel-process: parses back; the guard reads the current
      -- (nonnegative) opt_kernel_pid
      refine ⟨{ cfg with opt_kernel_pid := cfg.opt_kernel_pid }, ?_, rfl⟩
      simp only [renderKnob, argp_parse_key, strtol_intDec]
      rw [if_neg (by
        push_neg
        exact ⟨rfl, intDec_ne_nil _, by omega⟩)]

/-- Witness for C10 (amended) at a concrete in-range configuration:
re-parsing the emitted `--stat-mode=444` restores the stat-mode knob. -/
theorem netfs_append_args_roundtrip_witness :
    ∃ cfg', argp_parse_key pwdbEmpty ArgKey.statMode (some ['4', '4', '4']) cfgCompat
        = Outcome.ok cfg'
      ∧ knobValue ArgKey.statMode cfg' = knobValue ArgKey.statMode cfgCompat :=
  (netfs_append_args_roundtrip pwdbEmpty 60 cfgCompat).2 (by decide) (by decide) (by decide)
    (Or.inl rfl) (by decide) (ArgKey.statMode, ['4', '4', '4']) (by decide)

end Procfs
